import Mathlib

/-!
Verification of the `auto-assign` task-assignment tool.

The Go sources are shallowly embedded here:

* `selector/roundrobin.go`, `selector/random.go`, `selector/leastassigned.go`
  become the pure `SelectNext` functions below (Go's `%` on `int` is the
  truncated remainder, embedded as `Int.tmod`; a Go `map[string]int` read
  `counts[u]` yields the zero value for absent keys, embedded as a total
  function `String → Int`).
* `availability/inout_checker.go` and `availability/always_available.go`
  become checker functions over an explicit model of the remote response.
* `runner/runner.go` (`Assign`, `GetCounts`, `readCounts`, `readLastIndex`,
  `writeLastIndex`, `incrementCount`) becomes a pure state-passing model:
  the per-group files are a `GroupFiles` record, reads are functions of it,
  and the writes performed by a run are collected as an explicit effect list.
* Go functions returning `(T, error)` are embedded as `Except String T`
  (the error message being the string); the runner's error kinds
  (`ConfigError`, `SelectionError`, `AvailabilityError`,
  `NoAvailableAssigneeError`, `InvalidGroupError` — declared in an errors
  file of the repository that is not among the provided sources, and
  described in §7 of the specification) are embedded as the constructors of
  `AssignError`.
-/

namespace AutoAssign

/-- Go's `(int, error)` pairs are embedded as `Except String`. -/
abbrev Res (α : Type) := Except String α

/-! ## Selection strategies (`selector/*.go`) -/

namespace RoundRobin

/-- `RoundRobin.SelectNext` from `selector/roundrobin.go`:
returns `(lastIndex + 1) % len(users)` with Go's truncated remainder,
or an error on an empty user list.  The `counts` argument is unused,
exactly as in the source. -/
def SelectNext (users : List String) (lastIndex : Int) (_counts : String → Int) :
    Res Int :=
  if users.length = 0 then .error "empty users list"
  else .ok ((lastIndex + 1).tmod users.length)

end RoundRobin

namespace Random

/-- `Random.SelectNext` from `selector/random.go`.  The call
`rand.Intn(len(users))` is modelled by an injected oracle value `rand`
reduced into range; the claims under verification never depend on it. -/
def SelectNext (rand : Nat) (users : List String) (_lastIndex : Int)
    (_counts : String → Int) : Res Int :=
  if users.length = 0 then .error "empty users list"
  else .ok (Int.ofNat (rand % users.length))

end Random

namespace LeastAssigned

/-- Go initialises the running minimum with `1<<31 - 1`
("maximum possible integer value" per the source comment, although Go's
`int` is 64-bit). -/
def initialMin : Int := 2 ^ 31 - 1

/-- The scanning loop of `LeastAssigned.SelectNext`: Go's
`for i, u := range users { if counts[u] < min { min, index = counts[u], i } }`
with the running pair `(min, index)` and `i` the index of the head of the
remaining list. -/
def loop (counts : String → Int) : List String → Nat → Int → Nat → Int × Nat
  | [], _, minSoFar, index => (minSoFar, index)
  | u :: rest, i, minSoFar, index =>
    if counts u < minSoFar then loop counts rest (i + 1) (counts u) i
    else loop counts rest (i + 1) minSoFar index

/-- `LeastAssigned.SelectNext` from the least-assigned selector source:
error on an empty list, otherwise the index kept by `loop` started at
`(1<<31 - 1, 0)`.  `lastIndex` is unused, exactly as in the source. -/
def SelectNext (users : List String) (_lastIndex : Int) (counts : String → Int) :
    Res Int :=
  if users.length = 0 then .error "empty users list"
  else .ok (Int.ofNat (loop counts users 0 initialMin 0).2)

end LeastAssigned

/-! ## Availability checkers (`availability/*.go`)

`InOutChecker.IsAvailable` performs `http.Get(prefix + username)`, decodes
the response body as JSON, and compares the optional string field
`inOutLocation` against the configured unavailable statuses.  The remote
interaction is embedded as an explicit `RemoteResponse` value describing
what the transport and decoder produced; the Go source never reads
`resp.StatusCode`, and the embedding makes that visible: the `statusCode`
argument is carried but never inspected. -/

/-- The decoded `inOutLocation` member of the response object:
absent, present but not a JSON string (the Go type assertion
`result["inOutLocation"].(string)` fails), or a string. -/
inductive BodyField where
  | absent
  | nonString
  | str (s : String)
deriving DecidableEq

/-- The body of a received HTTP response: either it fails to decode as JSON
(`json.NewDecoder(...).Decode` errors) or it is a JSON object with the
optional `inOutLocation` member. -/
inductive RemoteBody where
  | notJson (msg : String)
  | jsonObj (inOutLocation : BodyField)
deriving DecidableEq

/-- Outcome of `http.Get`: a transport failure (`err != nil`), or a
response carrying a status code and a body. -/
inductive RemoteResponse where
  | transportFailure (msg : String)
  | response (statusCode : Nat) (body : RemoteBody)
deriving DecidableEq

namespace InOutChecker

/-- `InOutChecker.IsAvailable` from `availability/inout_checker.go`,
as a function of the configured unavailable statuses and the remote
response obtained for the username.  Mirrors the source line by line:
transport error ⇒ error; JSON decode error ⇒ error; `inOutLocation`
missing or not a string ⇒ available; otherwise unavailable exactly when
the status appears in the configured list.  The status code of the
response is never consulted. -/
def IsAvailable (unavailableStatuses : List String) (resp : RemoteResponse) :
    Res Bool :=
  match resp with
  | .transportFailure e => .error e
  | .response _statusCode body =>
    match body with
    | .notJson e => .error e
    | .jsonObj field =>
      match field with
      | .absent => .ok true
      | .nonString => .ok true
      | .str status =>
        if unavailableStatuses.contains status then .ok false else .ok true

end InOutChecker

namespace AlwaysAvailable

/-- `AlwaysAvailable.IsAvailable` from `availability/always_available.go`. -/
def IsAvailable (_username : String) : Res Bool := .ok true

end AlwaysAvailable

/-! ## Persistent per-group state (`runner/runner.go` storage helpers)

The tool keeps three files per group: `index.log` (append-only position
history), `counts.json` (a JSON object mapping username to count) and
`assignments.log` (append-only audit log).  `index.log` is modelled as raw
file content (a character list), because claims concern its parsing;
`counts.json` and `assignments.log` are modelled at the level of their
parsed content. -/

/-- Parsed content of `counts.json`: an association list (JSON object
keys are distinct).  A Go map read `counts[u]` yields 0 for an absent
key. -/
abbrev CountsMap := List (String × Int)

/-- Go `counts[u]`: the stored value, or the `int` zero value when the key
is absent (also the behaviour of a nil map). -/
def lookupCount (m : CountsMap) (u : String) : Int :=
  match m.find? (fun p => p.1 = u) with
  | some p => p.2
  | none => 0

/-- Go `_, exists := counts[u]`. -/
def hasKey (m : CountsMap) (u : String) : Bool := m.any (fun p => p.1 = u)

/-- Go `counts[u] = v`: replace the entry if present, otherwise add it. -/
def setCount (m : CountsMap) (u : String) (v : Int) : CountsMap :=
  if hasKey m u then m.map (fun p => if p.1 = u then (p.1, v) else p)
  else m ++ [(u, v)]

/-- The backfill loop shared by `readCounts`, `GetCounts` and
`ResetCounts`: `for _, user := range users { if _, exists := counts[user];
!exists { counts[user] = 0 } }`. -/
def backfillZeros (m : CountsMap) (users : List String) : CountsMap :=
  users.foldl (fun acc u => if hasKey acc u then acc else acc ++ [(u, 0)]) m

/-- Group configuration (`AssigneeGroupConfig` in `runner/runner.go`),
as parsed from the group's YAML file. -/
structure AssigneeGroupConfig where
  strategy : String
  availabilityChecker : String
  users : List String
deriving DecidableEq

/-- An entry of `assignments.log` (`AssignmentLog` in `runner/runner.go`).
The wall-clock `Timestamp` member is outside the embedding (it does not
participate in any verified claim). -/
structure AssignmentLog where
  group : String
  user : String
  strategy : String
  lastIndex : Int
  nextIndex : Int
  totalCount : Nat
  userCount : Int
deriving DecidableEq

/-- The per-group persistent state visible to one invocation:
the parsed group YAML (`none` = missing or unparseable), the raw
`index.log` content (`none` = file missing or unreadable), the parsed
`counts.json` content (`none` = file missing, unreadable, or not valid
JSON — all of which leave Go's map empty), and the parsed audit log. -/
structure GroupFiles where
  config : Option AssigneeGroupConfig
  indexLog : Option (List Char)
  countsFile : Option CountsMap
  auditLog : List AssignmentLog
deriving DecidableEq

/-- `readCounts` from `runner/runner.go`: start from the parsed
`counts.json` content (empty when missing or unparseable), then backfill a
zero entry for every configured user, provided the group config loads.
(The early return on a data-directory creation failure — an OS-level
`MkdirAll` error — is outside the embedding.) -/
def readCounts (files : GroupFiles) : CountsMap :=
  let counts := match files.countsFile with
    | some m => m
    | none => []
  match files.config with
  | some groupConf => backfillZeros counts groupConf.users
  | none => counts

/-- `DefaultCountManager.GetCounts` from `runner/defaults.go`: wraps
`readCounts`, failing when the resulting map is empty. -/
def DefaultCountManager.GetCounts (files : GroupFiles) (group : String) :
    Res CountsMap :=
  let counts := readCounts files
  if counts.length = 0 then .error ("no counts found for group " ++ group)
  else .ok counts

/-- `GetCounts` from `runner/runner.go` (the read-only companion
operation): validate the group config, read the counts, fail when the map
is empty, reload the config, backfill zero entries for configured users,
and return the map together with the configured user order.  The
`InvalidGroupError` message is the user-facing "group ... does not exist"
text. -/
def GetCounts (files : GroupFiles) (group : String) :
    Res (CountsMap × List String) :=
  match files.config with
  | none => .error ("group " ++ group ++ " does not exist")
  | some groupConf =>
    let counts := readCounts files
    if counts.length = 0 then .error ("no counts found for group " ++ group)
    else .ok (backfillZeros counts groupConf.users, groupConf.users)

/-- `incrementCount` from `runner/runner.go`: re-read the counts,
increment the user's entry, and overwrite `counts.json` with the full
map. -/
def incrementCountFiles (files : GroupFiles) (user : String) : GroupFiles :=
  let counts := readCounts files
  { files with
      countsFile := some (setCount counts user (lookupCount counts user + 1)) }

/-! ## Raw `index.log` parsing (`readLastIndex`, `writeLastIndex`)

Go's `strings.Split`, `strings.TrimSpace` and `strconv.Atoi` are embedded
as executable functions on character lists. -/

/-- `strings.Split(s, sep)` for a non-empty separator, written with an
explicit fuel argument (one unit per consumed character) so that it is
structurally recursive; `goSplit` below supplies sufficient fuel. -/
def splitCharsAux (sep : List Char) : Nat → List Char → List Char →
    List (List Char)
  | 0, cur, _ => [cur.reverse]
  | fuel + 1, cur, s =>
    match s with
    | [] => [cur.reverse]
    | c :: rest =>
      if (c :: rest).take sep.length = sep then
        cur.reverse :: splitCharsAux sep fuel [] ((c :: rest).drop sep.length)
      else
        splitCharsAux sep fuel (c :: cur) rest

/-- `strings.Split` on character lists (non-empty separator). -/
def goSplit (s sep : List Char) : List (List Char) :=
  splitCharsAux sep s.length [] s

/-- The ASCII white-space class trimmed by `strings.TrimSpace`
(the non-ASCII Unicode space code points are outside the embedding;
no verified claim involves them). -/
def isSpaceChar (c : Char) : Bool :=
  c = ' ' || c = '\t' || c = '\n' || c = '\x0b' || c = '\x0c' || c = '\r'

/-- `strings.TrimSpace` on character lists. -/
def goTrimSpace (s : List Char) : List Char :=
  ((s.dropWhile isSpaceChar).reverse.dropWhile isSpaceChar).reverse

/-- Decimal value of a digit list. -/
def digitsVal (ds : List Char) : Nat :=
  ds.foldl (fun acc c => acc * 10 + (c.toNat - '0'.toNat)) 0

/-- `strconv.Atoi`: an optional sign followed by at least one digit;
anything else is an error (`none`).  (`Atoi` additionally errors when the
value overflows a 64-bit `int`; the embedding uses unbounded integers, and
no verified claim involves 19-digit indices.) -/
def goAtoi (s : List Char) : Option Int :=
  match s with
  | [] => none
  | c :: rest =>
    let digits := if c = '-' || c = '+' then rest else c :: rest
    if digits = [] then none
    else if digits.all (fun d => d.isDigit) then
      if c = '-' then some (-(digitsVal digits : Int))
      else some (digitsVal digits)
    else none

/-- The backwards loop of `readLastIndex` picking the last non-empty
line (`lastLine` stays `""` when every line is empty). -/
def lastNonEmptyLine (lines : List (List Char)) : List Char :=
  match lines.reverse.find? (fun l => !l.isEmpty) with
  | some l => l
  | none => []

/-- `readLastIndex` from `runner/runner.go` as a function of the raw
`index.log` content (`none` = directory lookup failed, file missing or
unreadable): take the last non-empty line, split it on `"--"`, and when
that yields exactly two parts, trim and parse the second; every failure
yields the sentinel `-1`. -/
def readLastIndexRaw (content : Option (List Char)) : Int :=
  match content with
  | none => -1
  | some data =>
    if data.length = 0 then -1
    else
      let lines := goSplit data ['\n']
      if lines.length = 0 then -1
      else
        let lastLine := lastNonEmptyLine lines
        if lastLine.isEmpty then -1
        else
          let parts := goSplit lastLine ['-', '-']
          if parts.length = 2 then
            match goAtoi (goTrimSpace (parts.getD 1 [])) with
            | some v => v
            | none => -1
          else -1

/-- `DefaultStorageManager.ReadLastIndex` from `runner/defaults.go`:
`return readLastIndex(group), nil` — the error component is always
`nil`. -/
def DefaultStorageManager.ReadLastIndex (content : Option (List Char)) :
    Res Int :=
  .ok (readLastIndexRaw content)

/-- The line format of `writeLastIndex`:
`fmt.Fprintf(f, "%s -- %d\n", timestamp, index)`. -/
def indexLogLine (timestamp : List Char) (index : Int) : List Char :=
  timestamp ++ [' ', '-', '-', ' '] ++ (toString index).data ++ ['\n']

/-- `writeLastIndex` from `runner/runner.go`: append the formatted line to
`index.log`, creating the file when missing. -/
def writeLastIndexFiles (files : GroupFiles) (timestamp : List Char)
    (index : Int) : GroupFiles :=
  { files with
      indexLog := some (files.indexLog.getD [] ++ indexLogLine timestamp index) }

/-! ## The assignment orchestrator (`runner/runner.go` `Assign`,
`runner/factory.go`)

`Assign` is embedded as a pure function of an `Env` record carrying the
outcome of every interaction with the outside world: the parsed group
config, the results of the storage reads, the remote availability answers,
the random oracle, and the outcomes of the commit-phase writes.  Its
output records the Go return value, the ordered list of observable actions
(stdout emissions and state writes, in Go statement order — in particular
the chosen username is printed *before* the writes are attempted), and the
ordered list of users whose availability was checked. -/

deriving instance DecidableEq for Except

/-- A selection strategy as used by the orchestrator
(`AssignmentStrategy.SelectNext`). -/
abbrev StrategyFn := List String → Int → (String → Int) → Res Int

/-- `ComponentFactory.CreateAssignmentStrategy` from `runner/factory.go`:
resolve the strategy name, threading the random oracle to `Random`. -/
def CreateAssignmentStrategy (strategy : String) (rand : Nat) :
    Res StrategyFn :=
  if strategy = "random" then .ok (Random.SelectNext rand)
  else if strategy = "least_assigned" then .ok LeastAssigned.SelectNext
  else if strategy = "round_robin" then .ok RoundRobin.SelectNext
  else .error ("unknown strategy: " ++ strategy)

/-- `ComponentFactory.CreateAvailabilityChecker` from `runner/factory.go`:
`"inout"` resolves to the remote checker (embedded as the injected
function `remote`, the composite of URL construction, `http.Get` and body
decoding — see `InOutChecker.IsAvailable` for its per-response
behaviour), `"always_available"` to the constant checker. -/
def CreateAvailabilityChecker (checker : String)
    (remote : String → Res Bool) : Res (String → Res Bool) :=
  if checker = "inout" then .ok remote
  else if checker = "always_available" then
    .ok (fun u => AlwaysAvailable.IsAvailable u)
  else .error ("unknown availability checker: " ++ checker)

/-- The error kinds surfaced by `Assign` (the named error types live in an
errors file of the repository not among the provided sources; their kinds
and payloads follow §7 of the specification and the `return` sites in
`runner/runner.go`).  The `fmt.Errorf`-wrapped failures of the read and
commit phases are the `failed*` constructors.  `indexPanic` stands for
the Go runtime panic raised by `users[nextIndex]` when a strategy returns
an out-of-range index — not an `error` value in Go, but a distinct
observable outcome. -/
inductive AssignError where
  | configError (group : String) (msg : String)
  | failedReadLastIndex (msg : String)
  | failedGetCounts (msg : String)
  | selectionError (group : String) (msg : String)
  | availabilityError (user : String) (msg : String)
  | indexPanic (index : Int)
  | noAvailableAssignee (group : String)
  | failedWriteLastIndex (msg : String)
  | failedIncrementCount (msg : String)
  | failedGetUpdatedCounts (msg : String)
  | failedLogAssignment (msg : String)
deriving DecidableEq

/-- The observable actions of one `Assign` run, in program order. -/
inductive Effect where
  | printUser (user : String)
  | printDryRun (user : String)
  | writeLastIndex (index : Nat)
  | incrementCount (user : String)
  | logAssignment (entry : AssignmentLog)
deriving DecidableEq

/-- Which actions mutate persistent state (the position log, the count
store, the audit log); the stdout emissions do not. -/
def Effect.isWrite : Effect → Bool
  | .printUser _ => false
  | .printDryRun _ => false
  | .writeLastIndex _ => true
  | .incrementCount _ => true
  | .logAssignment _ => true

/-- Result of the availability scan loop. -/
inductive ScanOutcome where
  | found (index : Nat) (user : String)
  | checkerFailure (user : String) (msg : String)
  | exhausted
  | panicked (index : Int)
deriving DecidableEq

/-- The availability scan loop of `Assign`:
`for attempts < len(users)` (embedded as `fuel = len(users) - attempts`,
one unit per iteration), look up `users[nextIndex]` (a Go runtime panic
when out of range), consult the checker, and on a clean "unavailable"
advance to `(nextIndex + 1) % len(users)`.  Returns the outcome together
with the ordered list of users whose availability was checked. -/
def scanLoop (users : List String) (check : String → Res Bool) :
    Int → Nat → ScanOutcome × List String
  | _nextIndex, 0 => (.exhausted, [])
  | nextIndex, fuel + 1 =>
    if 0 ≤ nextIndex ∧ nextIndex < (users.length : Int) then
      let user := users.getD nextIndex.toNat ""
      match check user with
      | .error e => (.checkerFailure user e, [user])
      | .ok true => (.found nextIndex.toNat user, [user])
      | .ok false =>
        let next := scanLoop users check ((nextIndex + 1).tmod users.length) fuel
        (next.1, user :: next.2)
    else (.panicked nextIndex, [])

/-- Everything the outside world provides to one `Assign` invocation. -/
structure Env where
  /-- result of `factory.GetConfigLoader().LoadConfig(group)` -/
  loadConfig : Res AssigneeGroupConfig
  /-- result of `factory.GetStorageManager().ReadLastIndex(group)` -/
  readLastIndexRes : Res Int
  /-- result of the first `factory.GetCountManager().GetCounts(group)` -/
  getCountsRes : Res CountsMap
  /-- the remote availability checker, used when the config names
  `"inout"` -/
  remoteCheck : String → Res Bool
  /-- oracle for `rand.Intn` -/
  rand : Nat
  /-- result of `WriteLastIndex` in the commit phase -/
  writeLastIndexRes : Res Unit
  /-- result of `IncrementCount` in the commit phase -/
  incrementCountRes : Res Unit
  /-- result of the post-increment `GetCounts(group)` re-read, as a
  function of which user was incremented -/
  getUpdatedCounts : String → Res CountsMap
  /-- result of `LogAssignment` (including its internal config reload) -/
  logAssignmentRes : Res Unit

/-- The observable output of one `Assign` run. -/
structure AssignOutput where
  result : Except AssignError Unit
  effects : List Effect
  checkedUsers : List String
deriving DecidableEq

/-- `Assign` from `runner/runner.go`, mirroring its statement order:
load config, reject an empty user list, read last index and counts,
resolve strategy and checker, select, scan for availability, and on a
real (non-dry-run) success print the user and perform the three-way
commit (position, count, audit entry — the entry's `TotalCount` is the
configured user count and its `UserCount` the user's entry in the re-read
counts).  On dry-run, only the "[DRY RUN] Would assign to" notice is
emitted. -/
def Assign (env : Env) (group : String) (dryRun : Bool) : AssignOutput :=
  match env.loadConfig with
  | .error e => ⟨.error (.configError group e), [], []⟩
  | .ok groupConf =>
    let users := groupConf.users
    if users.length = 0 then
      ⟨.error (.configError group "no users found"), [], []⟩
    else
      match env.readLastIndexRes with
      | .error e => ⟨.error (.failedReadLastIndex e), [], []⟩
      | .ok lastIndex =>
        match env.getCountsRes with
        | .error e => ⟨.error (.failedGetCounts e), [], []⟩
        | .ok counts =>
          match CreateAssignmentStrategy groupConf.strategy env.rand with
          | .error e => ⟨.error (.configError group e), [], []⟩
          | .ok strategy =>
            match CreateAvailabilityChecker groupConf.availabilityChecker
                env.remoteCheck with
            | .error e => ⟨.error (.configError group e), [], []⟩
            | .ok availChecker =>
              match strategy users lastIndex (lookupCount counts) with
              | .error e => ⟨.error (.selectionError group e), [], []⟩
              | .ok nextIndex =>
                let scan := scanLoop users availChecker nextIndex users.length
                match scan.1 with
                | .exhausted => ⟨.error (.noAvailableAssignee group), [], scan.2⟩
                | .panicked i => ⟨.error (.indexPanic i), [], scan.2⟩
                | .checkerFailure user e =>
                  ⟨.error (.availabilityError user e), [], scan.2⟩
                | .found chosenIndex user =>
                  if dryRun then ⟨.ok (), [.printDryRun user], scan.2⟩
                  else
                    match env.writeLastIndexRes with
                    | .error e =>
                      ⟨.error (.failedWriteLastIndex e), [.printUser user], scan.2⟩
                    | .ok _ =>
                      match env.incrementCountRes with
                      | .error e =>
                        ⟨.error (.failedIncrementCount e),
                          [.printUser user, .writeLastIndex chosenIndex], scan.2⟩
                      | .ok _ =>
                        match env.getUpdatedCounts user with
                        | .error e =>
                          ⟨.error (.failedGetUpdatedCounts e),
                            [.printUser user, .writeLastIndex chosenIndex,
                              .incrementCount user], scan.2⟩
                        | .ok updatedCounts =>
                          match env.logAssignmentRes with
                          | .error e =>
                            ⟨.error (.failedLogAssignment e),
                              [.printUser user, .writeLastIndex chosenIndex,
                                .incrementCount user], scan.2⟩
                          | .ok _ =>
                            ⟨.ok (),
                              [.printUser user, .writeLastIndex chosenIndex,
                                .incrementCount user,
                                .logAssignment
                                  ⟨group, user, groupConf.strategy, lastIndex,
                                    Int.ofNat chosenIndex, users.length,
                                    lookupCount updatedCounts user⟩], scan.2⟩

/-- The `Env` realised by the default (file-backed) components of
`runner/defaults.go` over a given `GroupFiles` state: reads are the
file-based functions above, the commit-phase writes succeed (their
file-system failure modes are OS-level), and the post-increment counts
re-read sees the state after the increment (the preceding position write
does not touch `counts.json`).  `logAssignmentRes` reflects
`logAssignment`'s internal config reload, which within one invocation
sees the same config file. -/
def defaultEnv (files : GroupFiles) (group : String)
    (remote : String → Res Bool) (rand : Nat) : Env where
  loadConfig :=
    match files.config with
    | none => .error "failed to read config file"
    | some c => .ok c
  readLastIndexRes := DefaultStorageManager.ReadLastIndex files.indexLog
  getCountsRes := DefaultCountManager.GetCounts files group
  remoteCheck := remote
  rand := rand
  writeLastIndexRes := .ok ()
  incrementCountRes := .ok ()
  getUpdatedCounts := fun user =>
    DefaultCountManager.GetCounts (incrementCountFiles files user) group
  logAssignmentRes :=
    match files.config with
    | none => .error "failed to load group config for logging"
    | some _ => .ok ()

/-- How each effect mutates the per-group files, mirroring
`writeLastIndex`, `incrementCount` and `logAssignment`;
`timestamp` is the `time.Now().Format(time.RFC3339)` value used by the
position write. -/
def applyEffect (timestamp : List Char) (files : GroupFiles) :
    Effect → GroupFiles
  | .printUser _ => files
  | .printDryRun _ => files
  | .writeLastIndex i => writeLastIndexFiles files timestamp (Int.ofNat i)
  | .incrementCount user => incrementCountFiles files user
  | .logAssignment entry =>
    { files with auditLog := files.auditLog ++ [entry] }

/-- One full `Assign` invocation against the default file-backed
components: run `Assign` and apply its writes to the files in program
order. -/
def runAssign (files : GroupFiles) (group : String)
    (remote : String → Res Bool) (rand : Nat) (timestamp : List Char)
    (dryRun : Bool) : AssignOutput × GroupFiles :=
  let out := Assign (defaultEnv files group remote rand) group dryRun
  (out, out.effects.foldl (applyEffect timestamp) files)

/-! ## Claim-side readings and the reference scenario -/

/-- The specification's reading of one position-log line
(`'<prefix> -- <integer>'`): a value exactly when splitting on `"--"`
yields two parts whose trimmed second part parses as an integer. -/
def lineIndexValue (line : List Char) : Option Int :=
  match goSplit line ['-', '-'] with
  | [_, second] => goAtoi (goTrimSpace second)
  | _ => none

/-- The reference scenario's group: members `[alice, bob, charlie]`,
round-robin strategy, always-available checker. -/
def referenceConfig : AssigneeGroupConfig :=
  ⟨"round_robin", "always_available", ["alice", "bob", "charlie"]⟩

/-- The reference scenario's initial state: no prior persisted state
(no `index.log`, no `counts.json`, empty audit log). -/
def referenceFiles : GroupFiles := ⟨some referenceConfig, none, none, []⟩

/-- A remote checker that is never consulted (the reference group uses
`always_available`). -/
def unusedRemote : String → Res Bool := fun _ => .error "remote not in use"

/-- First real (non-dry-run) `Assign` run of the reference scenario. -/
def referenceRun1 : AssignOutput × GroupFiles :=
  runAssign referenceFiles "team" unusedRemote 0
    "2024-01-02T03:04:05Z".data false

/-- Second real `Assign` run, from the state the first run left. -/
def referenceRun2 : AssignOutput × GroupFiles :=
  runAssign referenceRun1.2 "team" unusedRemote 0
    "2024-01-02T03:05:06Z".data false

/-! ### Facts about the `LeastAssigned` loop -/

/-- If nothing in the remaining list beats the running minimum, the loop
returns its accumulator unchanged. -/
theorem LeastAssigned.loop_of_forall_le (counts : String → Int) :
    ∀ (l : List String) (i : Nat) (m : Int) (j : Nat),
      (∀ u ∈ l, m ≤ counts u) → LeastAssigned.loop counts l i m j = (m, j) := by
  intro l
  induction l with
  | nil => intro i m j _; rfl
  | cons u rest ih =>
    intro i m j h
    have hu : m ≤ counts u := h u (by simp)
    simp only [LeastAssigned.loop, if_neg (not_lt.mpr hu)]
    exact ih (i + 1) m j (fun v hv => h v (by simp [hv]))

/-- Main invariant of the `LeastAssigned` loop: if some element of the
remaining list is strictly below the running minimum, the loop returns the
absolute position (`i +` offset) of the first element attaining the minimum
of the remaining list, together with that minimum; every earlier element of
the remaining list is strictly larger. -/
theorem LeastAssigned.loop_argmin (counts : String → Int) :
    ∀ (l : List String) (i : Nat) (m : Int) (j : Nat),
      (∃ u ∈ l, counts u < m) →
      ∃ k, k < l.length ∧
        (LeastAssigned.loop counts l i m j).2 = i + k ∧
        counts (l.getD k "") < m ∧
        (∀ u ∈ l, counts (l.getD k "") ≤ counts u) ∧
        (∀ k', k' < k → counts (l.getD k "") < counts (l.getD k' "")) := by
  intro l
  induction l with
  | nil => intro i m j h; simp at h
  | cons u rest ih =>
    intro i m j h
    by_cases hu : counts u < m
    · -- the head improves the minimum; the loop continues with (counts u, i)
      by_cases hrest : ∃ v ∈ rest, counts v < counts u
      · obtain ⟨k, hk, heq, hlt, hmin, hearlier⟩ := ih (i + 1) (counts u) i hrest
        refine ⟨k + 1, by simpa using Nat.succ_lt_succ hk, ?_, ?_, ?_, ?_⟩
        · simp only [LeastAssigned.loop, if_pos hu]
          rw [heq]; omega
        · simpa using lt_trans hlt hu
        · intro v hv
          rcases List.mem_cons.mp hv with rfl | hv'
          · simpa using le_of_lt hlt
          · simpa using hmin v hv'
        · intro k' hk'
          match k' with
          | 0 => simpa using hlt
          | k'' + 1 =>
            have := hearlier k'' (by omega)
            simpa using this
      · push_neg at hrest
        have hloop := LeastAssigned.loop_of_forall_le counts rest (i + 1) (counts u) i hrest
        refine ⟨0, by simp, ?_, by simpa using hu, ?_, by omega⟩
        · simp only [LeastAssigned.loop, if_pos hu, hloop]
          omega
        · intro v hv
          rcases List.mem_cons.mp hv with rfl | hv'
          · simp
          · simpa using hrest v hv'
    · -- the head does not improve; the witness lies in the tail
      obtain ⟨w, hw, hwlt⟩ := h
      have hw' : w ∈ rest := by
        rcases List.mem_cons.mp hw with rfl | h'
        · exact absurd hwlt hu
        · exact h'
      obtain ⟨k, hk, heq, hlt, hmin, hearlier⟩ := ih (i + 1) m j ⟨w, hw', hwlt⟩
      refine ⟨k + 1, by simpa using Nat.succ_lt_succ hk, ?_, by simpa using hlt, ?_, ?_⟩
      · simp only [LeastAssigned.loop, if_neg hu]
        rw [heq]; omega
      · intro v hv
        rcases List.mem_cons.mp hv with rfl | hv'
        · have : counts (rest.getD k "") < m := hlt
          have hm : m ≤ counts v := not_lt.mp hu
          simpa using le_of_lt (lt_of_lt_of_le this hm)
        · simpa using hmin v hv'
      · intro k' hk'
        match k' with
        | 0 =>
          have hm : m ≤ counts u := not_lt.mp hu
          simpa using lt_of_lt_of_le hlt hm
        | k'' + 1 =>
          have := hearlier k'' (by omega)
          simpa using this

/-! ### Arithmetic helper: sign of Go's truncated remainder -/

/-- Go's truncated remainder keeps the sign of the dividend:
`(-a) % b = -(a % b)` for Go `%`, i.e. `Int.tmod`. -/
theorem tmod_neg_left (a b : Int) : (-a).tmod b = -(a.tmod b) := by
  simp only [Int.tmod_def, Int.neg_tdiv]
  ring

/-- A negative dividend not divisible by a positive divisor has a strictly
negative truncated remainder. -/
theorem tmod_neg_of_neg_not_dvd {a b : Int} (ha : a < 0) (hb : 0 < b)
    (hnd : ¬ b ∣ a) : a.tmod b < 0 := by
  have hrw : a.tmod b = -((-a).tmod b) := by
    rw [tmod_neg_left]; ring
  have hpos : 0 < (-a).tmod b := by
    rw [Int.tmod_eq_emod (by omega) (le_of_lt hb)]
    have hnn : 0 ≤ (-a) % b := Int.emod_nonneg (-a) (by omega)
    have hne : (-a) % b ≠ 0 := by
      intro h0
      exact hnd (Int.dvd_neg.mp (Int.dvd_of_emod_eq_zero h0))
    omega
  omega

/-! ## Claim theorems for the selection strategies -/

/-- C2: for every non-empty member list and every `lastIndex` in
`[-1, len(members) - 1]`, `RoundRobin.SelectNext` returns
`(lastIndex + 1) mod len(members)` (the true mathematical modulus) with no
error; in particular with `lastIndex = -1` it returns index 0. -/
theorem roundRobin_mod_in_domain (users : List String) (lastIndex : Int)
    (counts : String → Int) (hne : users ≠ [])
    (hlo : -1 ≤ lastIndex) (_hhi : lastIndex ≤ (users.length : Int) - 1) :
    RoundRobin.SelectNext users lastIndex counts =
      .ok ((lastIndex + 1) % (users.length : Int)) ∧
    (lastIndex = -1 →
      RoundRobin.SelectNext users lastIndex counts = .ok 0) := by
  have hlen : users.length ≠ 0 := fun h => hne (List.length_eq_zero.mp h)
  constructor
  · simp only [RoundRobin.SelectNext, if_neg hlen]
    rw [Int.tmod_eq_emod (by omega) (by positivity)]
  · intro h
    subst h
    simp [RoundRobin.SelectNext, hlen, Int.zero_tmod]

/-- Witness for C2: members `[a, b, c]`, `lastIndex = 2` wraps to index 0. -/
theorem roundRobin_mod_in_domain_witness :
    RoundRobin.SelectNext ["a", "b", "c"] 2 (fun _ => 0) =
      .ok ((2 + 1) % ((["a", "b", "c"] : List String).length : Int)) ∧
    ((2 : Int) = -1 →
      RoundRobin.SelectNext ["a", "b", "c"] 2 (fun _ => 0) = .ok 0) :=
  roundRobin_mod_in_domain ["a", "b", "c"] 2 (fun _ => 0)
    (by decide) (by decide) (by decide)

/-- C9: for every non-empty users list and every `lastIndex ≤ -2` with
`lastIndex + 1` not a multiple of `len(users)`, `RoundRobin.SelectNext`
returns Go's truncated remainder `(lastIndex + 1) % len(users)`, which is
strictly negative — not a valid index — and reports no error. -/
theorem roundRobin_negative_result (users : List String) (lastIndex : Int)
    (counts : String → Int) (hne : users ≠ []) (hle : lastIndex ≤ -2)
    (hnd : ¬ ((users.length : Int) ∣ (lastIndex + 1))) :
    RoundRobin.SelectNext users lastIndex counts =
      .ok ((lastIndex + 1).tmod users.length) ∧
    (lastIndex + 1).tmod users.length < 0 := by
  have hlen : users.length ≠ 0 := fun h => hne (List.length_eq_zero.mp h)
  have hpos : (0 : Int) < users.length := by
    have : 0 < users.length := Nat.pos_of_ne_zero hlen
    exact_mod_cast this
  refine ⟨by simp only [RoundRobin.SelectNext, if_neg hlen], ?_⟩
  exact tmod_neg_of_neg_not_dvd (by omega) hpos hnd

/-- Witness for C9: members `[a, b, c]`, `lastIndex = -5`: the result is
`-1`, a negative pseudo-index, with no error. -/
theorem roundRobin_negative_result_witness :
    RoundRobin.SelectNext ["a", "b", "c"] (-5) (fun _ => 0) =
      .ok (((-5 : Int) + 1).tmod (["a", "b", "c"] : List String).length) ∧
    ((-5 : Int) + 1).tmod (["a", "b", "c"] : List String).length < 0 :=
  roundRobin_negative_result ["a", "b", "c"] (-5) (fun _ => 0)
    (by decide) (by decide) (by decide)

/-- Concrete members and counts refuting C3 as stated: member `b` (index 1)
has the strictly smallest count, but all counts are at or above the
`1<<31 - 1` initialisation of the loop's running minimum. -/
def c3Counts : String → Int := fun u => if u = "b" then 2 ^ 31 - 1 else 2 ^ 31

/-- C3 counterexample: with members `[a, b]` and counts
`{a: 2^31, b: 2^31 - 1}`, `LeastAssigned.SelectNext` returns index 0 even
though index 1 has the strictly smaller (minimal) count: the claim's
"lowest index whose count equals the minimum" would be 1.  The Go loop
initialises its running minimum to `1<<31 - 1`, so no member with a count
at or above that sentinel can ever be recognised as the minimum. -/
theorem leastAssigned_claim_counterexample :
    LeastAssigned.SelectNext ["a", "b"] (-1) c3Counts = .ok 0 ∧
    c3Counts ((["a", "b"] : List String).getD 1 "") <
      c3Counts ((["a", "b"] : List String).getD 0 "") := by
  constructor
  · rfl
  · decide

/-- C3 amended: for every non-empty member list and every counts mapping
(a total `String → Int`, so absent entries — including the nil-map case —
read as zero, as for a Go map) **in which some member's count is below the
`1<<31 - 1` loop sentinel**, `LeastAssigned.SelectNext` returns, with no
error, the lowest index whose member's count equals the minimum count over
all members, regardless of the `lastIndex` argument. -/
theorem leastAssigned_argmin (users : List String) (lastIndex : Int)
    (counts : String → Int) (hne : users ≠ [])
    (hbelow : ∃ u ∈ users, counts u < LeastAssigned.initialMin) :
    ∃ k, LeastAssigned.SelectNext users lastIndex counts = .ok (Int.ofNat k) ∧
      k < users.length ∧
      (∀ u ∈ users, counts (users.getD k "") ≤ counts u) ∧
      (∀ k', k' < k → counts (users.getD k "") < counts (users.getD k' "")) ∧
      (∀ lastIndex' : Int,
        LeastAssigned.SelectNext users lastIndex' counts =
          LeastAssigned.SelectNext users lastIndex counts) := by
  have hlen : users.length ≠ 0 := fun h => hne (List.length_eq_zero.mp h)
  obtain ⟨k, hk, heq, _, hmin, hearlier⟩ :=
    LeastAssigned.loop_argmin counts users 0 LeastAssigned.initialMin 0 hbelow
  refine ⟨k, ?_, hk, hmin, hearlier, fun _ => rfl⟩
  simp only [LeastAssigned.SelectNext, if_neg hlen, heq, Nat.zero_add]

/-- Witness for C3 amended: members `[x, y]`, counts `{x: 2, y: 1}` — the
selected index is the argmin position 1. -/
theorem leastAssigned_argmin_witness :
    ∃ k, LeastAssigned.SelectNext ["x", "y"] (-1)
        (fun u => if u = "y" then 1 else 2) = .ok (Int.ofNat k) ∧
      k < (["x", "y"] : List String).length ∧
      (∀ u ∈ (["x", "y"] : List String),
        (fun u => if u = "y" then (1 : Int) else 2)
            ((["x", "y"] : List String).getD k "") ≤
          (fun u => if u = "y" then (1 : Int) else 2) u) ∧
      (∀ k', k' < k →
        (fun u => if u = "y" then (1 : Int) else 2)
            ((["x", "y"] : List String).getD k "") <
          (fun u => if u = "y" then (1 : Int) else 2)
            ((["x", "y"] : List String).getD k' "")) ∧
      (∀ lastIndex' : Int,
        LeastAssigned.SelectNext ["x", "y"] lastIndex'
            (fun u => if u = "y" then 1 else 2) =
          LeastAssigned.SelectNext ["x", "y"] (-1)
            (fun u => if u = "y" then 1 else 2)) :=
  leastAssigned_argmin ["x", "y"] (-1) (fun u => if u = "y" then 1 else 2)
    (by decide) ⟨"y", by decide, by decide⟩

/-- C1: with members `[alice, bob, charlie]`, strategy `round_robin`,
checker `always_available` and no prior persisted state, the first real
run of `Assign` selects alice (index 0), persists position 0, increments
alice's count to 1 and appends exactly one audit entry; the second real
run then selects bob (index 1). -/
theorem assign_reference_two_runs :
    referenceRun1.1.result = .ok () ∧
    referenceRun1.1.effects =
      [.printUser "alice", .writeLastIndex 0, .incrementCount "alice",
        .logAssignment ⟨"team", "alice", "round_robin", -1, 0, 3, 1⟩] ∧
    readLastIndexRaw referenceRun1.2.indexLog = 0 ∧
    lookupCount (readCounts referenceRun1.2) "alice" = 1 ∧
    referenceRun1.2.auditLog.length = 1 ∧
    referenceRun2.1.result = .ok () ∧
    referenceRun2.1.effects =
      [.printUser "bob", .writeLastIndex 1, .incrementCount "bob",
        .logAssignment ⟨"team", "bob", "round_robin", 0, 1, 3, 1⟩] := by
  decide

/-- C8 counterexample: a not-found response whose body decodes as a JSON
object (here: one without an `inOutLocation` member) makes
`InOutChecker.IsAvailable` return `(true, nil)` — no `RemoteCheckFailure`
error, contrary to the claim that a non-success response status yields an
error.  The source never reads `resp.StatusCode`; the observed error on a
not-found response arises only when its body fails to decode as JSON. -/
theorem inOutChecker_claim_counterexample :
    InOutChecker.IsAvailable ["OOO", "AWAY"]
      (.response 404 (.jsonObj .absent)) = .ok true := rfl

/-- C8 amended: `InOutChecker.IsAvailable` never consults the HTTP status
code — for a delivered response its outcome is a function of the body
alone; it errors exactly when the body fails to decode as JSON (or, per
the `transportFailure` branch of the embedding, when the transport
fails); and it returns a false availability result exactly when the
decoded `inOutLocation` is a string in the configured unavailable list —
never merely because of a non-success status. -/
theorem inOutChecker_ignores_status (unavailableStatuses : List String) :
    (∀ (code code' : Nat) (body : RemoteBody),
      InOutChecker.IsAvailable unavailableStatuses (.response code body) =
        InOutChecker.IsAvailable unavailableStatuses (.response code' body)) ∧
    (∀ (code : Nat) (body : RemoteBody),
      (∃ e, InOutChecker.IsAvailable unavailableStatuses
          (.response code body) = .error e) ↔ ∃ m, body = .notJson m) ∧
    (∀ (code : Nat) (body : RemoteBody),
      InOutChecker.IsAvailable unavailableStatuses (.response code body) =
          .ok false ↔
        ∃ s, body = .jsonObj (.str s) ∧ s ∈ unavailableStatuses) := by
  refine ⟨fun code code' body => rfl, fun code body => ?_, fun code body => ?_⟩
  · constructor
    · rintro ⟨e, he⟩
      cases body with
      | notJson m => exact ⟨m, rfl⟩
      | jsonObj field =>
        exfalso
        cases field with
        | absent => simp [InOutChecker.IsAvailable] at he
        | nonString => simp [InOutChecker.IsAvailable] at he
        | str s =>
          by_cases hs : s ∈ unavailableStatuses <;>
            simp [InOutChecker.IsAvailable, hs] at he
    · rintro ⟨m, rfl⟩
      exact ⟨m, rfl⟩
  · constructor
    · intro h
      cases body with
      | notJson m => simp [InOutChecker.IsAvailable] at h
      | jsonObj field =>
        cases field with
        | absent => simp [InOutChecker.IsAvailable] at h
        | nonString => simp [InOutChecker.IsAvailable] at h
        | str s =>
          by_cases hs : s ∈ unavailableStatuses
          · exact ⟨s, rfl, hs⟩
          · simp [InOutChecker.IsAvailable, hs] at h
    · rintro ⟨s, rfl, hs⟩
      simp [InOutChecker.IsAvailable, hs]

/-- Witness for C8 amended: a not-found and a success response with the
same decoded body produce the same checker outcome. -/
theorem inOutChecker_ignores_status_witness :
    InOutChecker.IsAvailable ["OOO"] (.response 404 (.jsonObj (.str "OOO"))) =
      InOutChecker.IsAvailable ["OOO"] (.response 200 (.jsonObj (.str "OOO"))) :=
  (inOutChecker_ignores_status ["OOO"]).1 404 200 (.jsonObj (.str "OOO"))

/-! ### `GetCounts` error characterisation (C7) -/

/-- The backfill loop yields an empty map only from an empty map and an
empty user list. -/
theorem backfillZeros_eq_nil_iff :
    ∀ (users : List String) (m : CountsMap),
      backfillZeros m users = [] ↔ m = [] ∧ users = [] := by
  intro users
  induction users with
  | nil =>
    intro m
    exact ⟨fun h => ⟨h, rfl⟩, fun h => h.1⟩
  | cons u us ih =>
    intro m
    constructor
    · intro h
      exfalso
      have hm' := ((ih (if hasKey m u then m else m ++ [(u, 0)])).mp h).1
      by_cases hk : hasKey m u
      · rw [if_pos hk] at hm'
        subst hm'
        simp [hasKey] at hk
      · rw [if_neg hk] at hm'
        simp at hm'
    · intro h
      exact absurd h.2 (by simp)

/-- C7 counterexample: a loadable group with one configured member whose
persisted count store is entirely empty (`counts.json` missing).  The
claim requires a "no counts found" failure; `GetCounts` instead succeeds
with the member's count backfilled to zero, because `readCounts` adds a
zero entry for every configured user before the emptiness test. -/
theorem getCounts_claim_counterexample :
    GetCounts
        ⟨some ⟨"round_robin", "always_available", ["alice"]⟩, none, none, []⟩
        "team" =
      .ok ([("alice", 0)], ["alice"]) := rfl

/-- C7 amended: `GetCounts` fails with `InvalidGroup` whenever the group
config cannot be loaded; when the config loads, it fails with the
"no counts found" error exactly when the persisted count store has no
entries **and** the group's configured user list is empty — for a group
with at least one member, a missing or empty counts file yields zero
counts, not an error. -/
theorem getCounts_error_characterisation (files : GroupFiles)
    (group : String) :
    (files.config = none →
      GetCounts files group =
        .error ("group " ++ group ++ " does not exist")) ∧
    (∀ groupConf, files.config = some groupConf →
      (GetCounts files group =
          .error ("no counts found for group " ++ group) ↔
        files.countsFile.getD [] = [] ∧ groupConf.users = [])) := by
  constructor
  · intro h
    simp [GetCounts, h]
  · intro groupConf hconf
    have hrc : readCounts files =
        backfillZeros (files.countsFile.getD []) groupConf.users := by
      simp only [readCounts, hconf]
      cases files.countsFile <;> rfl
    constructor
    · intro h
      have hempty : readCounts files = [] := by
        simpa [GetCounts, hconf] using h
      rw [hrc] at hempty
      exact (backfillZeros_eq_nil_iff _ _).mp hempty
    · rintro ⟨h1, h2⟩
      have : readCounts files = [] := by
        rw [hrc, h1, h2]
        rfl
      simp [GetCounts, hconf, this]

/-- Witness for C7 amended: an unloadable group config yields the
`InvalidGroup` error. -/
theorem getCounts_error_characterisation_witness :
    GetCounts (⟨none, none, none, []⟩ : GroupFiles) "ghost" =
      .error ("group " ++ "ghost" ++ " does not exist") :=
  (getCounts_error_characterisation ⟨none, none, none, []⟩ "ghost").1 rfl

/-! ### Dry-run frame property (C6) -/

/-- A non-write action leaves the files untouched. -/
theorem applyEffect_of_not_write (timestamp : List Char) (files : GroupFiles)
    (eff : Effect) (h : eff.isWrite = false) :
    applyEffect timestamp files eff = files := by
  cases eff <;> simp_all [Effect.isWrite, applyEffect]

/-- Folding only non-write actions leaves the files untouched. -/
theorem foldl_applyEffect_of_not_write (timestamp : List Char) :
    ∀ (effs : List Effect) (files : GroupFiles),
      (∀ eff ∈ effs, eff.isWrite = false) →
      effs.foldl (applyEffect timestamp) files = files := by
  intro effs
  induction effs with
  | nil => intro files _; rfl
  | cons e rest ih =>
    intro files h
    have he : applyEffect timestamp files e = files :=
      applyEffect_of_not_write timestamp files e (h e (by simp))
    simp only [List.foldl, he]
    exact ih files (fun eff heff => h eff (by simp [heff]))

/-- C6: a dry-run `Assign` performs no write to the position log, the
count store, or the audit log, for every environment and group — its only
effects are stdout notices; consequently, against the default file-backed
components, a dry-run leaves the per-group files exactly as they were. -/
theorem assign_dry_run_writes_nothing :
    (∀ (env : Env) (group : String),
      ∀ eff ∈ (Assign env group true).effects, eff.isWrite = false) ∧
    (∀ (files : GroupFiles) (group : String) (remote : String → Res Bool)
        (rand : Nat) (timestamp : List Char),
      (runAssign files group remote rand timestamp true).2 = files) := by
  have h1 : ∀ (env : Env) (group : String),
      ∀ eff ∈ (Assign env group true).effects, eff.isWrite = false := by
    intro env group
    unfold Assign
    dsimp only
    repeat' split
    all_goals intro eff heff
    all_goals simp_all [Effect.isWrite]
  refine ⟨h1, fun files group remote rand timestamp => ?_⟩
  exact foldl_applyEffect_of_not_write timestamp _ files
    (h1 (defaultEnv files group remote rand) group)

/-- Witness for C6: a dry-run from the reference scenario's initial state
returns it unchanged. -/
theorem assign_dry_run_writes_nothing_witness :
    (runAssign (⟨none, none, none, []⟩ : GroupFiles) "team" unusedRemote 0
        "2024-01-02T03:04:05Z".data true).2 =
      (⟨none, none, none, []⟩ : GroupFiles) :=
  assign_dry_run_writes_nothing.2 ⟨none, none, none, []⟩ "team" unusedRemote 0
    "2024-01-02T03:04:05Z".data

/-! ### Scan-loop bound and exhaustion (C4, C5) -/

/-- The scan loop checks at most one user per unit of fuel. -/
theorem scanLoop_checked_le (users : List String) (check : String → Res Bool) :
    ∀ (fuel : Nat) (idx : Int),
      ((scanLoop users check idx fuel).2).length ≤ fuel := by
  intro fuel
  induction fuel with
  | zero => intro idx; simp [scanLoop]
  | succ n ih =>
    intro idx
    simp only [scanLoop]
    split
    · cases hc : check (users.getD idx.toNat "") with
      | error e => simp [hc]
      | ok b =>
        cases b with
        | true => simp [hc]
        | false =>
          simp only [hc]
          simpa using Nat.succ_le_succ (ih ((idx + 1).tmod users.length))
    · simp

/-- In-range `getD` produces a member of the list. -/
theorem getD_mem_of_lt {l : List String} {i : Nat} (h : i < l.length) :
    l.getD i "" ∈ l := by
  rw [List.getD_eq_getElem l "" h]
  exact List.getElem_mem h

/-- With every member cleanly unavailable, the scan loop exhausts its fuel
and reports `Exhausted`, from any in-range starting index. -/
theorem scanLoop_all_unavailable (users : List String)
    (check : String → Res Bool)
    (hall : ∀ u ∈ users, check u = .ok false) :
    ∀ (fuel : Nat) (idx : Int), 0 ≤ idx → idx < (users.length : Int) →
      (scanLoop users check idx fuel).1 = .exhausted := by
  intro fuel
  induction fuel with
  | zero => intro idx _ _; rfl
  | succ n ih =>
    intro idx h0 hlt
    have hidx : idx.toNat < users.length := by omega
    have hc := hall _ (getD_mem_of_lt hidx)
    have hlen : (0 : Int) < (users.length : Int) := by omega
    simp only [scanLoop, if_pos (And.intro h0 hlt), hc]
    have h1 : (0 : Int) ≤ (idx + 1).tmod users.length := by
      rw [Int.tmod_eq_emod (by omega) (by omega)]
      exact Int.emod_nonneg _ (by omega)
    have h2 : (idx + 1).tmod users.length < (users.length : Int) := by
      rw [Int.tmod_eq_emod (by omega) (by omega)]
      exact Int.emod_lt_of_pos _ hlen
    exact ih _ h1 h2

/-- C4: in every invocation of `Assign`, the availability scan inspects at
most `len(members)` candidates; and whenever the run reaches the scan with
an in-range starting candidate and every member is reported unavailable
with no checker error, `Assign` fails with `NoAvailableAssignee`. -/
theorem assign_scan_bound_and_exhaustion :
    (∀ (env : Env) (group : String) (dryRun : Bool)
        (groupConf : AssigneeGroupConfig),
      env.loadConfig = .ok groupConf →
      (Assign env group dryRun).checkedUsers.length ≤
        groupConf.users.length) ∧
    (∀ (env : Env) (group : String) (dryRun : Bool)
        (groupConf : AssigneeGroupConfig) (lastIndex : Int)
        (counts : CountsMap) (strategy : StrategyFn)
        (check : String → Res Bool) (nextIndex : Int),
      env.loadConfig = .ok groupConf →
      env.readLastIndexRes = .ok lastIndex →
      env.getCountsRes = .ok counts →
      CreateAssignmentStrategy groupConf.strategy env.rand = .ok strategy →
      CreateAvailabilityChecker groupConf.availabilityChecker
        env.remoteCheck = .ok check →
      strategy groupConf.users lastIndex (lookupCount counts) =
        .ok nextIndex →
      0 ≤ nextIndex → nextIndex < (groupConf.users.length : Int) →
      (∀ u ∈ groupConf.users, check u = .ok false) →
      (Assign env group dryRun).result =
        .error (.noAvailableAssignee group)) := by
  constructor
  · intro env group dryRun groupConf hload
    unfold Assign
    rw [hload]
    dsimp only
    repeat' split
    all_goals first
      | exact scanLoop_checked_le _ _ _ _
      | simp
  · intro env group dryRun groupConf lastIndex counts strategy check
      nextIndex hload hread hcounts hstrat hcheck hsel h0 hlt hall
    have hlen : groupConf.users.length ≠ 0 := by omega
    have hscan := scanLoop_all_unavailable groupConf.users check hall
      groupConf.users.length nextIndex h0 hlt
    unfold Assign
    rw [hload]
    dsimp only
    rw [if_neg hlen, hread]
    dsimp only
    rw [hcounts]
    dsimp only
    rw [hstrat]
    dsimp only
    rw [hcheck]
    dsimp only
    rw [hsel]
    dsimp only
    rw [hscan]

/-- C5: a checker failure aborts the scan at once — within the scan loop,
a candidate whose availability check errors yields `checkerFailure`
naming that user, with that user as the one and only inspected candidate
from that point; lifted to `Assign`, when the run reaches the scan and the
checker errors on the in-range starting candidate, `Assign` fails with
`AvailabilityError` naming that user, having inspected exactly that one
candidate — the failure is never treated as the candidate being
unavailable. -/
theorem assign_checker_error_immediate :
    (∀ (users : List String) (check : String → Res Bool) (idx : Int)
        (fuel : Nat) (e : String),
      0 ≤ idx → idx < (users.length : Int) →
      check (users.getD idx.toNat "") = .error e →
      scanLoop users check idx (fuel + 1) =
        (.checkerFailure (users.getD idx.toNat "") e,
          [users.getD idx.toNat ""])) ∧
    (∀ (env : Env) (group : String) (dryRun : Bool)
        (groupConf : AssigneeGroupConfig) (lastIndex : Int)
        (counts : CountsMap) (strategy : StrategyFn)
        (check : String → Res Bool) (nextIndex : Int) (e : String),
      env.loadConfig = .ok groupConf →
      env.readLastIndexRes = .ok lastIndex →
      env.getCountsRes = .ok counts →
      CreateAssignmentStrategy groupConf.strategy env.rand = .ok strategy →
      CreateAvailabilityChecker groupConf.availabilityChecker
        env.remoteCheck = .ok check →
      strategy groupConf.users lastIndex (lookupCount counts) =
        .ok nextIndex →
      0 ≤ nextIndex → nextIndex < (groupConf.users.length : Int) →
      check (groupConf.users.getD nextIndex.toNat "") = .error e →
      (Assign env group dryRun).result =
          .error (.availabilityError
            (groupConf.users.getD nextIndex.toNat "") e) ∧
        (Assign env group dryRun).checkedUsers =
          [groupConf.users.getD nextIndex.toNat ""]) := by
  have hstep : ∀ (users : List String) (check : String → Res Bool)
      (idx : Int) (fuel : Nat) (e : String),
      0 ≤ idx → idx < (users.length : Int) →
      check (users.getD idx.toNat "") = .error e →
      scanLoop users check idx (fuel + 1) =
        (.checkerFailure (users.getD idx.toNat "") e,
          [users.getD idx.toNat ""]) := by
    intro users check idx fuel e h0 hlt hc
    simp only [scanLoop, if_pos (And.intro h0 hlt), hc]
  refine ⟨hstep, ?_⟩
  intro env group dryRun groupConf lastIndex counts strategy check
    nextIndex e hload hread hcounts hstrat hcheck hsel h0 hlt hc
  have hlen : groupConf.users.length ≠ 0 := by omega
  obtain ⟨fuel, hfuel⟩ : ∃ n, groupConf.users.length = n + 1 :=
    ⟨groupConf.users.length - 1, by omega⟩
  have hscan := hstep groupConf.users check nextIndex fuel e h0 hlt hc
  constructor
  all_goals
    unfold Assign
    rw [hload]
    dsimp only
    rw [if_neg hlen, hread]
    dsimp only
    rw [hcounts]
    dsimp only
    rw [hstrat]
    dsimp only
    rw [hcheck]
    dsimp only
    rw [hsel]
    dsimp only
    rw [hfuel, hscan]

/-- Witness for C4: a two-member `inout` group whose remote checker
reports everyone unavailable — the run fails with `NoAvailableAssignee`
after at most two inspections. -/
theorem assign_scan_bound_and_exhaustion_witness :
    (Assign (defaultEnv
        ⟨some ⟨"round_robin", "inout", ["u1", "u2"]⟩, none, none, []⟩
        "g" (fun _ => .ok false) 0) "g" false).result =
      .error (.noAvailableAssignee "g") ∧
    (Assign (defaultEnv
        ⟨some ⟨"round_robin", "inout", ["u1", "u2"]⟩, none, none, []⟩
        "g" (fun _ => .ok false) 0) "g" false).checkedUsers.length ≤ 2 :=
  ⟨assign_scan_bound_and_exhaustion.2
      (defaultEnv ⟨some ⟨"round_robin", "inout", ["u1", "u2"]⟩, none, none, []⟩
        "g" (fun _ => .ok false) 0)
      "g" false ⟨"round_robin", "inout", ["u1", "u2"]⟩ (-1)
      [("u1", 0), ("u2", 0)] RoundRobin.SelectNext (fun _ => .ok false) 0
      rfl rfl rfl rfl rfl rfl (by decide) (by decide) (fun _ _ => rfl),
    assign_scan_bound_and_exhaustion.1
      (defaultEnv ⟨some ⟨"round_robin", "inout", ["u1", "u2"]⟩, none, none, []⟩
        "g" (fun _ => .ok false) 0)
      "g" false ⟨"round_robin", "inout", ["u1", "u2"]⟩ rfl⟩

/-- Witness for C5: a two-member `inout` group whose remote checker
errors on the first candidate — the run fails with `AvailabilityError`
naming `u1`, having inspected only `u1`. -/
theorem assign_checker_error_immediate_witness :
    (Assign (defaultEnv
        ⟨some ⟨"round_robin", "inout", ["u1", "u2"]⟩, none, none, []⟩
        "g" (fun _ => .error "boom") 0) "g" false).result =
      .error (.availabilityError "u1" "boom") ∧
    (Assign (defaultEnv
        ⟨some ⟨"round_robin", "inout", ["u1", "u2"]⟩, none, none, []⟩
        "g" (fun _ => .error "boom") 0) "g" false).checkedUsers = ["u1"] :=
  assign_checker_error_immediate.2
    (defaultEnv ⟨some ⟨"round_robin", "inout", ["u1", "u2"]⟩, none, none, []⟩
      "g" (fun _ => .error "boom") 0)
    "g" false ⟨"round_robin", "inout", ["u1", "u2"]⟩ (-1)
    [("u1", 0), ("u2", 0)] RoundRobin.SelectNext (fun _ => .error "boom") 0
    "boom" rfl rfl rfl rfl rfl rfl (by decide) (by decide) rfl

/-! ### Totality of `ReadLastIndex` (C10) -/

/-- C10: reading the last index is total and never errors —
`DefaultStorageManager.ReadLastIndex` always returns the `readLastIndex`
value with a `nil` error; the parse yields `-1` for a missing or
unreadable file, and in general the value described by the claim-side
`lineIndexValue` reading of the last non-empty line (`-1` whenever that
line is not of the form `<prefix> -- <integer>`, the parsed integer
otherwise); consequently, the `failed to read last index` branch of
`Assign` is unreachable against the default storage components. -/
theorem readLastIndex_total_and_sentinel :
    (∀ content, DefaultStorageManager.ReadLastIndex content =
      .ok (readLastIndexRaw content)) ∧
    readLastIndexRaw none = -1 ∧
    (∀ data : List Char,
      readLastIndexRaw (some data) =
        match lineIndexValue (lastNonEmptyLine (goSplit data ['\n'])) with
        | some v => v
        | none => -1) ∧
    (∀ (files : GroupFiles) (group : String) (remote : String → Res Bool)
        (rand : Nat) (dryRun : Bool) (e : String),
      (Assign (defaultEnv files group remote rand) group dryRun).result ≠
        .error (.failedReadLastIndex e)) := by
  refine ⟨fun content => rfl, rfl, ?_, ?_⟩
  · intro data
    by_cases hdata : data.length = 0
    · have hnil : data = [] := List.length_eq_zero.mp hdata
      subst hnil
      rfl
    · simp only [readLastIndexRaw, if_neg hdata]
      by_cases hlines : (goSplit data ['\n']).length = 0
      · rw [if_pos hlines, List.length_eq_zero.mp hlines]
        rfl
      · rw [if_neg hlines]
        by_cases hempty : (lastNonEmptyLine (goSplit data ['\n'])).isEmpty
        · rw [if_pos hempty]
          rw [List.isEmpty_iff.mp hempty]
          rfl
        · rw [if_neg hempty]
          rcases hparts : goSplit (lastNonEmptyLine (goSplit data ['\n']))
              ['-', '-'] with _ | ⟨a, _ | ⟨b, _ | ⟨c, rest⟩⟩⟩
          · simp [lineIndexValue, hparts]
          · simp [lineIndexValue, hparts]
          · cases hatoi : goAtoi (goTrimSpace b) <;>
              simp [lineIndexValue, hparts, hatoi]
          · simp [lineIndexValue, hparts]
  · intro files group remote rand dryRun e
    unfold Assign
    cases hcfg : files.config with
    | none => simp [defaultEnv, hcfg]
    | some c =>
      simp only [defaultEnv, DefaultStorageManager.ReadLastIndex, hcfg]
      repeat' split
      all_goals simp

/-- Witness for C10: the default read yields `ok` on a missing file, and a
concrete default-component run does not produce the read failure. -/
theorem readLastIndex_total_and_sentinel_witness :
    DefaultStorageManager.ReadLastIndex none = .ok (readLastIndexRaw none) ∧
    (Assign (defaultEnv (⟨none, none, none, []⟩ : GroupFiles) "g"
        unusedRemote 0) "g" false).result ≠
      .error (.failedReadLastIndex "x") :=
  ⟨readLastIndex_total_and_sentinel.1 none,
    readLastIndex_total_and_sentinel.2.2.2 ⟨none, none, none, []⟩ "g"
      unusedRemote 0 false "x"⟩

end AutoAssign
